import Mathlib

/-!
Shallow embedding of the declaration-boundary extraction engine of
`build-index.py` (functions `collect_lemma_signatures` and
`extract_lemma_name`): a stateful line scanner over the lines of one
source file, producing declaration records.

Lines are modelled as strings without a trailing newline (the Python code
reads lines with `readlines` and strips the newline before storing them;
every per-line test it performs gives the same answer on the
newline-stripped line).  Python's `str.strip` / regex `\s` are modelled on
the ASCII whitespace characters, and the regex word class `\w` (used only
for the `\b` boundaries in the `data ... where` pattern) is modelled as
ASCII alphanumerics plus underscore.
-/

namespace AgdaLemmaSearch

/-- ASCII model of Python's whitespace class (`str.strip`, regex `\s`). -/
def pyIsSpace (c : Char) : Bool :=
  c = ' ' || c = '\t' || c = '\n' || c = '\r' || c = '\x0b' || c = '\x0c'

/-- ASCII model of the Python regex word class `\w`, used for `\b`. -/
def isWordChar (c : Char) : Bool :=
  c.isAlpha || c.isDigit || c = '_'

/-- Does the list start with the given pattern list? -/
def startsWithL : List Char → List Char → Bool
  | _, [] => true
  | [], _ :: _ => false
  | a :: as, b :: bs => a == b && startsWithL as bs

/-- Does the pattern occur as a contiguous sublist (Python's `in`)? -/
def containsL : List Char → List Char → Bool
  | [], p => startsWithL [] p
  | a :: as, p => startsWithL (a :: as) p || containsL as p

/-- Python `pat in s`. -/
def containsSub (s pat : String) : Bool := containsL s.data pat.data

/-- Python `s.startswith(pat)`. -/
def pyStartsWith (s pat : String) : Bool := startsWithL s.data pat.data

/-- Python `s.endswith(pat)`. -/
def pyEndsWith (s pat : String) : Bool :=
  startsWithL s.data.reverse pat.data.reverse

/-- Leading-whitespace removal on character lists (Python `lstrip`). -/
def pyLStripL (l : List Char) : List Char := l.dropWhile pyIsSpace

/-- Python `s.strip()`. -/
def pyStrip (s : String) : String :=
  String.mk ((pyLStripL s.data).reverse.dropWhile pyIsSpace).reverse

/-- Python `len(line) - len(line.lstrip())`: the indentation width. -/
def indentOf (s : String) : Nat := (s.data.takeWhile pyIsSpace).length

/-- Helper for `splitWs`: accumulate the current (reversed) token. -/
def splitWsAux : List Char → List Char → List String
  | [], cur => if cur.isEmpty then [] else [String.mk cur.reverse]
  | c :: cs, cur =>
    if pyIsSpace c then
      if cur.isEmpty then splitWsAux cs []
      else String.mk cur.reverse :: splitWsAux cs []
    else splitWsAux cs (c :: cur)

/-- Python `s.split()`: split on whitespace runs, dropping empties. -/
def splitWs (s : String) : List String := splitWsAux s.data []

/-- Split a character list just before its last colon: returns the
characters before the last `:` and the characters after it. -/
def splitAtLastColon : List Char → Option (List Char × List Char)
  | [] => none
  | c :: cs =>
    match splitAtLastColon cs with
    | some (p, q) => some (c :: p, q)
    | none => if c = ':' then some ([], cs) else none

/-- Model of matching the Python regex `^\s*(\S+)\s*:\s*(.*)$` against one
newline-free line, returning the two capture groups on success.  The greedy
`\S+` with backtracking means: if the maximal non-whitespace token is
followed (after optional whitespace) by a colon, the whole token is the
name; otherwise the name is the part of the token before its last interior
colon, which must leave a non-empty name. -/
def nameColon (s : String) : Option (String × String) :=
  let cs := pyLStripL s.data
  let tok := cs.takeWhile (fun c => !(pyIsSpace c))
  let rest := cs.dropWhile (fun c => !(pyIsSpace c))
  if tok.isEmpty then none
  else
    match rest.dropWhile pyIsSpace with
    | ':' :: r2 => some (String.mk tok, String.mk (r2.dropWhile pyIsSpace))
    | _ =>
      match splitAtLastColon tok with
      | some (p, q) =>
        if p.isEmpty then none
        else some (String.mk p, String.mk ((q ++ rest).dropWhile pyIsSpace))
      | none => none

/-- Is the remainder position a `\b` boundary (end of word)?  True at end
of string or when the next character is not a word character. -/
def boundaryOkAfter : List Char → Bool
  | [] => true
  | c :: _ => !(isWordChar c)

/-- Does `where` with a `\b` boundary on both sides start right here? -/
def whereAt (l : List Char) : Bool :=
  startsWithL l ("where".data) && boundaryOkAfter (l.drop 5)

/-- Does `\bwhere\b` occur at some position at index one or later? -/
def whereSearch : List Char → Bool
  | [] => false
  | [_] => false
  | a :: b :: rest =>
    (!(isWordChar a) && whereAt (b :: rest)) || whereSearch (b :: rest)

/-- Model of `re.search` of `^\s*data\b.*\bwhere\b` (anchored, so it is a
match at the start of the line). -/
def data_where_match (s : String) : Bool :=
  let cs := pyLStripL s.data
  startsWithL cs ("data".data) && boundaryOkAfter (cs.drop 4) &&
    whereSearch (cs.drop 4)

/-- Model of `re.search` of `^\s*data\s+\S+`. -/
def data_match (s : String) : Bool :=
  let cs := pyLStripL s.data
  startsWithL cs ("data".data) &&
    (match cs.drop 4 with
     | [] => false
     | c :: r => pyIsSpace c && !((r.dropWhile pyIsSpace).isEmpty))

/-- Model of `re.search` of `^\s*record\s+\S+`. -/
def record_match (s : String) : Bool :=
  let cs := pyLStripL s.data
  startsWithL cs ("record".data) &&
    (match cs.drop 6 with
     | [] => false
     | c :: r => pyIsSpace c && !((r.dropWhile pyIsSpace).isEmpty))

/-- One emitted declaration record (the per-file part: the `file` field of
the Python dict is the same constant for a whole scan and is omitted). -/
structure LemmaRecord where
  id : Nat
  name : String
  signature : String
  line : Nat
deriving Repr, DecidableEq

/-- Per-file scanner state of `collect_lemma_signatures`, together with the
1-based index of the next line (`idx`), the next fresh `id` and the output
sequence accumulated so far. -/
structure ScanState where
  reading : Bool
  startLine : Nat
  acc : List String
  dataBlock : Bool
  recordBlock : Bool
  blockIndent : Nat
  idx : Nat
  nextId : Nat
  out : List LemmaRecord
deriving Repr, DecidableEq

/-- Python `"\n".join(lines)`. -/
def joinNl : List String → String
  | [] => ""
  | [s] => s
  | s :: r :: rest => s ++ "\n" ++ joinNl (r :: rest)

/-- The stoplist of names filtered out by `extract_lemma_name`. -/
def stoplist : List String := ["_", "l", "m", "n", "k", "j", "regΓ"]

/-- Model of `extract_lemma_name`: derive the candidate's name from the
first line of its accumulated text and filter stoplisted names,
parenthesised artifacts, `ela-`-prefixed internal names and
constructor-argument shaped signatures.  Returns the empty string for
reject, as the Python function does. -/
def extract_lemma_name (lemma_text : String) : String :=
  match nameColon (String.mk (lemma_text.data.takeWhile (fun c => c != '\n'))) with
  | none => ""
  | some (nm, sig) =>
    if stoplist.contains nm then ""
    else if pyStartsWith nm "(" then ""
    else if pyStartsWith nm "ela-" then ""
    else if pyStartsWith (pyStrip sig) "(" && containsSub sig "regΓ" then ""
    else nm

/-- The accumulated candidate text as finalized
(`"\n".join(current_lemma_lines).strip()`). -/
def candidateText (st : ScanState) : String := pyStrip (joinNl st.acc)

/-- The record a finalization of the open candidate would emit. -/
def mkRec (st : ScanState) : LemmaRecord :=
  { id := st.nextId, name := extract_lemma_name (candidateText st),
    signature := candidateText st, line := st.startLine }

/-- Finalize the pending candidate: when a candidate is open, join and trim
its accumulated lines, extract the name, and append a record when the name
is accepted.  Mirrors the repeated emission snippet of the Python loop;
does not clear the pending fields (the call sites do). -/
def flush (st : ScanState) : ScanState :=
  if st.reading && !st.acc.isEmpty then
    if extract_lemma_name (candidateText st) != "" then
      { st with out := st.out ++ [mkRec st], nextId := st.nextId + 1 }
    else st
  else st

/-- Clear the pending candidate (`reading_lemma = False`,
`current_lemma_lines = []`). -/
def resetPending (st : ScanState) : ScanState :=
  { st with reading := false, acc := [] }

/-- Finalize then clear the pending candidate. -/
def flushReset (st : ScanState) : ScanState := resetPending (flush st)

/-- Advance to the next line number. -/
def bumpIdx (st : ScanState) : ScanState := { st with idx := st.idx + 1 }

/-- Leave a data or record block. -/
def clearBlock (st : ScanState) : ScanState :=
  { st with dataBlock := false, recordBlock := false, blockIndent := 0 }

/-- Open a fresh pending candidate on the current line. -/
def startNew (st : ScanState) (line : String) : ScanState :=
  { st with
    reading := true, startLine := st.idx, acc := [line], idx := st.idx + 1 }

/-- First line of the open candidate (`current_lemma_lines[0]`). -/
def headerLine (st : ScanState) : String := st.acc.headD ""

/-- Indentation of the candidate's first line. -/
def headerIndent (st : ScanState) : Nat := indentOf (headerLine st)

/-- The candidate's name as recomputed by the body-start heuristic from the
first accumulated line (empty when the name pattern does not match). -/
def headerName (st : ScanState) : String :=
  match nameColon (headerLine st) with
  | some p => p.1
  | none => ""

/-- Trimmed remainder of the line after the candidate's own name
(`stripped_line[len(lemma_name):].strip()`). -/
def remainingAfterName (st : ScanState) (line : String) : String :=
  pyStrip (String.mk ((pyStrip line).data.drop (headerName st).data.length))

/-- Model of the lookback over the last three accumulated non-blank lines
(`'→' in l or '⟹' in l or ':' in l.split()[-1]`). -/
def last3Check (acc : List String) : Bool :=
  ((acc.drop (acc.length - 3)).filter (fun l => pyStrip l != "")).any
    (fun l =>
      containsSub l "→" || containsSub l "⟹" ||
        (match (splitWs l).getLast? with
         | some t => containsSub t ":"
         | none => false))

/-- The body-start heuristic (`proof_started` in the Python loop): decides
whether the current line begins the implementation of the open candidate
(or, via the assignment token, begins a body even with no candidate
open). -/
def proofStarted (st : ScanState) (line : String) : Bool :=
  if containsSub line " = " then true
  else if st.reading && !st.acc.isEmpty then
    if indentOf line = headerIndent st then
      if pyStartsWith (pyStrip line) "(" || containsSub line " with " ||
          pyStartsWith (pyStrip line) "where " ||
          pyStartsWith (pyStrip line) "..." then
        true
      else if headerName st != "" &&
          pyStartsWith (pyStrip line) (headerName st ++ " ") then
        pyStartsWith (remainingAfterName st line) "(" ||
          containsSub (remainingAfterName st line) " with "
      else false
    else
      pyStartsWith (pyStrip line) "(" && !(pyEndsWith (pyStrip line) ":") &&
        !(last3Check st.acc)
  else false

/-- Top-level handling of a non-comment line outside any block, after
possible block exit: open a block (flushing the candidate), finalize on a
body start, or extend or open a candidate. -/
def stepPlain (st : ScanState) (line : String) : ScanState :=
  if st.reading then
    if (nameColon line).isSome then startNew (flush st) line
    else bumpIdx { st with acc := st.acc ++ [line] }
  else if (nameColon line).isSome then startNew st line
  else bumpIdx st

/-- Enter a data block at the given indentation, flushing the candidate. -/
def enterDataBlock (st : ScanState) (ind : Nat) : ScanState :=
  { flushReset st with dataBlock := true, blockIndent := ind }

/-- Enter a record block at the given indentation, flushing the candidate. -/
def enterRecordBlock (st : ScanState) (ind : Nat) : ScanState :=
  { flushReset st with recordBlock := true, blockIndent := ind }

/-- Handling of a non-comment line when no block is active. -/
def stepTop (st : ScanState) (line : String) : ScanState :=
  if data_where_match line || data_match line then
    bumpIdx (enterDataBlock st (indentOf line))
  else if record_match line then
    bumpIdx (enterRecordBlock st (indentOf line))
  else if proofStarted st line then bumpIdx (flushReset st)
  else stepPlain st line

/-- Exit the current block when the line is non-blank and its indentation
is at most the block's indentation. -/
def afterExit (st : ScanState) (line : String) : ScanState :=
  if (st.dataBlock || st.recordBlock) &&
      decide (indentOf line ≤ st.blockIndent) && (pyStrip line != "") then
    clearBlock st
  else st

/-- Process one line of the file: skip comments, exit a block whose end is
reached, skip block-interior lines (flushing any candidate), and otherwise
defer to the top-level handling. -/
def processLine (st : ScanState) (line : String) : ScanState :=
  if pyStartsWith (pyStrip line) "--" then bumpIdx st
  else
    if (afterExit st line).dataBlock || (afterExit st line).recordBlock then
      bumpIdx (flushReset (afterExit st line))
    else stepTop (afterExit st line) line

/-- Scan a list of lines, threading the state. -/
def scanLines : ScanState → List String → ScanState
  | st, [] => st
  | st, l :: ls => scanLines (processLine st l) ls

/-- Scanner state at the start of a file. -/
def initState : ScanState :=
  { reading := false, startLine := 0, acc := [], dataBlock := false,
    recordBlock := false, blockIndent := 0, idx := 1, nextId := 0, out := [] }

/-- The per-file core of `collect_lemma_signatures`: scan all lines and
flush the candidate still open at end of file. -/
def collect_lemma_signatures (lines : List String) : List LemmaRecord :=
  (flush (scanLines initState lines)).out

/-! Helper lemmas about the scanner. -/

@[simp]
theorem flush_reading (st : ScanState) : (flush st).reading = st.reading := by
  unfold flush; split <;> [split <;> rfl; rfl]

@[simp]
theorem flush_acc (st : ScanState) : (flush st).acc = st.acc := by
  unfold flush; split <;> [split <;> rfl; rfl]

@[simp]
theorem flush_dataBlock (st : ScanState) :
    (flush st).dataBlock = st.dataBlock := by
  unfold flush; split <;> [split <;> rfl; rfl]

@[simp]
theorem flush_recordBlock (st : ScanState) :
    (flush st).recordBlock = st.recordBlock := by
  unfold flush; split <;> [split <;> rfl; rfl]

@[simp]
theorem flush_blockIndent (st : ScanState) :
    (flush st).blockIndent = st.blockIndent := by
  unfold flush; split <;> [split <;> rfl; rfl]

@[simp]
theorem flush_idx (st : ScanState) : (flush st).idx = st.idx := by
  unfold flush; split <;> [split <;> rfl; rfl]

@[simp]
theorem flush_startLine (st : ScanState) :
    (flush st).startLine = st.startLine := by
  unfold flush; split <;> [split <;> rfl; rfl]

theorem flush_out (st : ScanState) :
    ∃ d, (flush st).out = st.out ++ d ∧ ∀ r ∈ d, r.name ≠ "" := by
  unfold flush
  split
  · split
    · rename_i hnm
      refine ⟨[mkRec st], rfl, ?_⟩
      intro r hr
      simp only [List.mem_singleton] at hr
      subst hr
      simpa [mkRec] using hnm
    · exact ⟨[], by simp⟩
  · exact ⟨[], by simp⟩

theorem flushReset_clean (st : ScanState) (hr : st.reading = false)
    (ha : st.acc = []) : flushReset st = st := by
  cases st
  simp only at hr ha
  subst hr ha
  simp [flushReset, flush, resetPending]

theorem afterExit_stay (st : ScanState) (line : String)
    (hskip : pyStrip line = "" ∨ st.blockIndent < indentOf line) :
    afterExit st line = st := by
  unfold afterExit
  rcases hskip with h | h
  · rw [if_neg]
    simp [h]
  · rw [if_neg]
    simp [Nat.not_le.mpr h]

theorem afterExit_noBlock (st : ScanState) (line : String)
    (hdb : st.dataBlock = false) (hrb : st.recordBlock = false) :
    afterExit st line = st := by
  unfold afterExit
  rw [if_neg]
  simp [hdb, hrb]

theorem afterExit_exit (st : ScanState) (line : String)
    (hb : (st.dataBlock || st.recordBlock) = true)
    (hnb : pyStrip line ≠ "") (hind : indentOf line ≤ st.blockIndent) :
    afterExit st line = clearBlock st := by
  unfold afterExit
  rw [if_pos]
  simp [hb, hind, hnb]

theorem processLine_comment (st : ScanState) (line : String)
    (h : pyStartsWith (pyStrip line) "--" = true) :
    processLine st line = bumpIdx st := by
  simp [processLine, h]

theorem processLine_top (st : ScanState) (line : String)
    (hdb : st.dataBlock = false) (hrb : st.recordBlock = false)
    (hcom : pyStartsWith (pyStrip line) "--" = false) :
    processLine st line = stepTop st line := by
  have hstay := afterExit_noBlock st line hdb hrb
  rw [processLine, if_neg (by simp [hcom]), hstay, if_neg]
  simp [hdb, hrb]

theorem fragSkip (st : ScanState) (line : String)
    (hb : (st.dataBlock || st.recordBlock) = true)
    (hr : st.reading = false) (ha : st.acc = [])
    (hskip : pyStrip line = "" ∨ st.blockIndent < indentOf line) :
    processLine st line = bumpIdx st := by
  by_cases hcom : pyStartsWith (pyStrip line) "--" = true
  · exact processLine_comment st line hcom
  · rw [processLine, if_neg hcom, afterExit_stay st line hskip, if_pos hb,
      flushReset_clean st hr ha]

theorem closingReeval (st : ScanState) (line : String)
    (hb : (st.dataBlock || st.recordBlock) = true)
    (hnb : pyStrip line ≠ "")
    (hcom : pyStartsWith (pyStrip line) "--" = false)
    (hind : indentOf line ≤ st.blockIndent) :
    processLine st line = processLine (clearBlock st) line := by
  have hcom' : ¬(pyStartsWith (pyStrip line) "--" = true) := by simp [hcom]
  rw [processLine, if_neg hcom', afterExit_exit st line hb hnb hind,
    processLine, if_neg hcom',
    afterExit_noBlock (clearBlock st) line rfl rfl]

theorem proofStarted_of_assign (st : ScanState) (line : String)
    (h : containsSub line " = " = true) : proofStarted st line = true := by
  rw [proofStarted, if_pos h]

theorem proofStarted_noPending (st : ScanState) (line : String)
    (hr : st.reading = false) (h : containsSub line " = " = false) :
    proofStarted st line = false := by
  rw [proofStarted, if_neg (by simp [h]), if_neg]
  simp [hr]

theorem stepTop_proof (st : ScanState) (line : String)
    (hdw : data_where_match line = false) (hdm : data_match line = false)
    (hrm : record_match line = false) (hp : proofStarted st line = true) :
    stepTop st line = bumpIdx (flushReset st) := by
  rw [stepTop, if_neg (by simp [hdw, hdm]), if_neg (by simp [hrm]), if_pos hp]

theorem stepTop_plain (st : ScanState) (line : String)
    (hdw : data_where_match line = false) (hdm : data_match line = false)
    (hrm : record_match line = false) (hp : proofStarted st line = false) :
    stepTop st line = stepPlain st line := by
  rw [stepTop, if_neg (by simp [hdw, hdm]), if_neg (by simp [hrm]),
    if_neg (by simp [hp])]

@[simp]
theorem stepPlain_dataBlock (st : ScanState) (line : String) :
    (stepPlain st line).dataBlock = st.dataBlock := by
  unfold stepPlain
  split
  · split <;> simp [startNew, bumpIdx]
  · split <;> simp [startNew, bumpIdx]

@[simp]
theorem stepPlain_recordBlock (st : ScanState) (line : String) :
    (stepPlain st line).recordBlock = st.recordBlock := by
  unfold stepPlain
  split
  · split <;> simp [startNew, bumpIdx]
  · split <;> simp [startNew, bumpIdx]

/-- The invariant of claim C10: inside a block there is never an open
pending candidate. -/
def InBlockInv (st : ScanState) : Prop :=
  (st.dataBlock || st.recordBlock) = true → st.reading = false ∧ st.acc = []

theorem inv_stepTop (st : ScanState) (line : String)
    (hdb : st.dataBlock = false) (hrb : st.recordBlock = false) :
    InBlockInv (stepTop st line) := by
  unfold stepTop
  split
  · intro _
    constructor <;> simp [bumpIdx, enterDataBlock, flushReset, resetPending]
  · split
    · intro _
      constructor <;> simp [bumpIdx, enterRecordBlock, flushReset, resetPending]
    · split
      · intro _
        constructor <;> simp [bumpIdx, flushReset, resetPending]
      · intro hb
        rw [stepPlain_dataBlock, stepPlain_recordBlock, hdb, hrb] at hb
        simp at hb

theorem inv_step (st : ScanState) (line : String) (h : InBlockInv st) :
    InBlockInv (processLine st line) := by
  by_cases hcom : pyStartsWith (pyStrip line) "--" = true
  · rw [processLine_comment st line hcom]
    intro hb
    simp only [bumpIdx] at hb ⊢
    exact h hb
  · rw [processLine, if_neg hcom]
    by_cases hb1 : ((afterExit st line).dataBlock ||
        (afterExit st line).recordBlock) = true
    · rw [if_pos hb1]
      intro _
      constructor <;> simp [bumpIdx, flushReset, resetPending]
    · rw [if_neg hb1]
      simp only [Bool.or_eq_true, not_or, Bool.not_eq_true] at hb1
      exact inv_stepTop (afterExit st line) line hb1.1 hb1.2

theorem inv_scanLines (st : ScanState) (lines : List String)
    (h : InBlockInv st) : InBlockInv (scanLines st lines) := by
  induction lines generalizing st with
  | nil => exact h
  | cons l ls ih => exact ih (processLine st l) (inv_step st l h)

@[simp]
theorem afterExit_out (st : ScanState) (line : String) :
    (afterExit st line).out = st.out := by
  unfold afterExit
  split <;> simp [clearBlock]

theorem stepPlain_out (st : ScanState) (line : String) :
    ∃ d, (stepPlain st line).out = st.out ++ d ∧ ∀ r ∈ d, r.name ≠ "" := by
  unfold stepPlain
  split
  · split
    · obtain ⟨d, hd, hn⟩ := flush_out st
      exact ⟨d, by simp [startNew, hd], hn⟩
    · exact ⟨[], by simp [bumpIdx]⟩
  · split
    · exact ⟨[], by simp [startNew]⟩
    · exact ⟨[], by simp [bumpIdx]⟩

theorem stepTop_out (st : ScanState) (line : String) :
    ∃ d, (stepTop st line).out = st.out ++ d ∧ ∀ r ∈ d, r.name ≠ "" := by
  unfold stepTop
  split
  · obtain ⟨d, hd, hn⟩ := flush_out st
    exact ⟨d, by simp [bumpIdx, enterDataBlock, flushReset, resetPending, hd], hn⟩
  · split
    · obtain ⟨d, hd, hn⟩ := flush_out st
      exact ⟨d, by simp [bumpIdx, enterRecordBlock, flushReset, resetPending, hd], hn⟩
    · split
      · obtain ⟨d, hd, hn⟩ := flush_out st
        exact ⟨d, by simp [bumpIdx, flushReset, resetPending, hd], hn⟩
      · exact stepPlain_out st line

theorem processLine_out (st : ScanState) (line : String) :
    ∃ d, (processLine st line).out = st.out ++ d ∧ ∀ r ∈ d, r.name ≠ "" := by
  by_cases hcom : pyStartsWith (pyStrip line) "--" = true
  · rw [processLine_comment st line hcom]
    exact ⟨[], by simp [bumpIdx]⟩
  · rw [processLine, if_neg hcom]
    by_cases hb1 : ((afterExit st line).dataBlock ||
        (afterExit st line).recordBlock) = true
    · rw [if_pos hb1]
      obtain ⟨d, hd, hn⟩ := flush_out (afterExit st line)
      refine ⟨d, ?_, hn⟩
      simp only [bumpIdx, flushReset, resetPending]
      simp [hd]
    · rw [if_neg hb1]
      obtain ⟨d, hd, hn⟩ := stepTop_out (afterExit st line) line
      refine ⟨d, ?_, hn⟩
      simp [hd]

theorem scanLines_out (st : ScanState) (lines : List String) :
    ∃ d, (scanLines st lines).out = st.out ++ d ∧ ∀ r ∈ d, r.name ≠ "" := by
  induction lines generalizing st with
  | nil => exact ⟨[], by simp [scanLines]⟩
  | cons l ls ih =>
    obtain ⟨d1, hd1, hn1⟩ := processLine_out st l
    obtain ⟨d2, hd2, hn2⟩ := ih (processLine st l)
    refine ⟨d1 ++ d2, ?_, ?_⟩
    · rw [scanLines, hd2, hd1, List.append_assoc]
    · intro r hr
      rcases List.mem_append.mp hr with h | h
      · exact hn1 r h
      · exact hn2 r h

theorem scanLines_eq_foldl (st : ScanState) (lines : List String) :
    scanLines st lines = List.foldl processLine st lines := by
  induction lines generalizing st with
  | nil => rfl
  | cons l ls ih => rw [scanLines, List.foldl_cons, ih]

/-! The claims. -/

/-- C1 counterexample: the claim says that a body-start line is
re-evaluated as a potential new declaration header after finalizing the
pending candidate, so that scanning `foo : A` followed by the header-shaped
body-start line `bar : U = v` would open (and at end of file emit) a `bar`
candidate.  The scanner actually drops the line: only the `foo` record is
produced. -/
theorem C1_counterexample :
    collect_lemma_signatures ["foo : A", "bar : U = v"] =
      [{ id := 0, name := "foo", signature := "foo : A", line := 1 }] := by
  decide

/-- C1 (amended): when a top-level non-comment, non-block line is
classified as a body start while a candidate may be open, the scanner
finalizes and clears the pending candidate and consumes the line: the line
is not re-evaluated as a potential new declaration header (the resulting
state is exactly the flushed-and-cleared state with the line counter
advanced, with nothing accumulated), even when the line itself matches
declaration-header shape. -/
theorem C1_body_start_drops_line (st : ScanState) (line : String)
    (hdb : st.dataBlock = false) (hrb : st.recordBlock = false)
    (hcom : pyStartsWith (pyStrip line) "--" = false)
    (hdw : data_where_match line = false) (hdm : data_match line = false)
    (hrm : record_match line = false)
    (hp : proofStarted st line = true) :
    processLine st line = bumpIdx (flushReset st) := by
  rw [processLine_top st line hdb hrb hcom, stepTop_proof st line hdw hdm hrm hp]

/-- C1 witness: the amended theorem applied to the state holding the open
`foo : A` candidate and the body-start line `bar : U = v`. -/
theorem C1_witness :
    processLine (scanLines initState ["foo : A"]) "bar : U = v" =
      bumpIdx (flushReset (scanLines initState ["foo : A"])) :=
  C1_body_start_drops_line (scanLines initState ["foo : A"]) "bar : U = v"
    (by decide) (by decide) (by decide) (by decide) (by decide) (by decide)
    (by decide)

/-- C2 counterexample: the claim says a top-level line of
declaration-header shape read with no open candidate always starts a new
pending candidate, in particular the one-line definition `x : T = v` would
yield a record at end of file.  The scanner classifies any line containing
the assignment token as a body start before the header check, so the line
is dropped and the scan of the one-line file emits nothing. -/
theorem C2_counterexample : collect_lemma_signatures ["x : T = v"] = [] := by
  decide

/-- C2 (amended): a top-level non-comment, non-block-construct line read
with no block active and no pending candidate open starts a new pending
candidate (accumulating exactly this line, with the current line number as
its start line) when it matches declaration-header shape, provided it does
not contain the assignment token surrounded by spaces; a header-shaped
line containing the assignment token is instead dropped. -/
theorem C2_new_pending (st : ScanState) (line : String)
    (hdb : st.dataBlock = false) (hrb : st.recordBlock = false)
    (hcom : pyStartsWith (pyStrip line) "--" = false)
    (hdw : data_where_match line = false) (hdm : data_match line = false)
    (hrm : record_match line = false)
    (hr : st.reading = false)
    (hne : containsSub line " = " = false)
    (hn : (nameColon line).isSome = true) :
    processLine st line =
      { st with
        reading := true, startLine := st.idx, acc := [line],
        idx := st.idx + 1 } := by
  rw [processLine_top st line hdb hrb hcom,
    stepTop_plain st line hdw hdm hrm (proofStarted_noPending st line hr hne)]
  rw [stepPlain, if_neg (by simp [hr]), if_pos hn]
  rfl

/-- C2 witness: the amended theorem applied to the initial state and the
header-shaped line `x : T`. -/
theorem C2_witness :
    processLine initState "x : T" =
      { initState with
        reading := true, startLine := initState.idx, acc := ["x : T"],
        idx := initState.idx + 1 } :=
  C2_new_pending initState "x : T" (by decide) (by decide) (by decide)
    (by decide) (by decide) (by decide) (by decide) (by decide) (by decide)

/-- C3: a non-comment line read outside a block while a candidate is open
that contains the assignment token surrounded by spaces always finalizes
the pending candidate (the candidate is passed through the name resolver
and the pending state is cleared), regardless of the line's indentation —
this holds in every branch the line can take (block-construct header or
plain body start). -/
theorem C3_assignment_finalizes (st : ScanState) (line : String)
    (hdb : st.dataBlock = false) (hrb : st.recordBlock = false)
    (hr : st.reading = true) (ha : st.acc ≠ [])
    (hcom : pyStartsWith (pyStrip line) "--" = false)
    (heq : containsSub line " = " = true) :
    (processLine st line).reading = false ∧ (processLine st line).acc = [] ∧
      (processLine st line).out = (flush st).out := by
  rw [processLine_top st line hdb hrb hcom]
  by_cases hdwm : (data_where_match line || data_match line) = true
  · rw [stepTop, if_pos hdwm]
    refine ⟨?_, ?_, ?_⟩ <;>
      simp [bumpIdx, enterDataBlock, flushReset, resetPending]
  · by_cases hrm : record_match line = true
    · rw [stepTop, if_neg hdwm, if_pos hrm]
      refine ⟨?_, ?_, ?_⟩ <;>
        simp [bumpIdx, enterRecordBlock, flushReset, resetPending]
    · rw [stepTop, if_neg hdwm, if_neg hrm,
        if_pos (proofStarted_of_assign st line heq)]
      refine ⟨?_, ?_, ?_⟩ <;> simp [bumpIdx, flushReset, resetPending]

/-- C3 witness: the open `foo : A` candidate is finalized by the line
`foo x = x`. -/
theorem C3_witness :
    (processLine (scanLines initState ["foo : A"]) "foo x = x").reading =
        false ∧
      (processLine (scanLines initState ["foo : A"]) "foo x = x").acc = [] ∧
      (processLine (scanLines initState ["foo : A"]) "foo x = x").out =
        (flush (scanLines initState ["foo : A"])).out :=
  C3_assignment_finalizes (scanLines initState ["foo : A"]) "foo x = x"
    (by decide) (by decide) (by decide) (by decide) (by decide) (by decide)

/-- C4: scanning the lines `foo : A -> B`, `foo x = x`, `bar : C` yields
exactly the two records named `foo` (line 1, signature `foo : A -> B`) and
`bar` (line 3, signature `bar : C`). -/
theorem C4_concrete_scenario :
    collect_lemma_signatures ["foo : A -> B", "foo x = x", "bar : C"] =
      [{ id := 0, name := "foo", signature := "foo : A -> B", line := 1 },
       { id := 1, name := "bar", signature := "bar : C", line := 3 }] := by
  decide

/-- C5: block-skip correctness, in three parts.  First, processing a
block-construct header (data or record shaped) from a top-level state
enters a block at the header's indentation with no pending candidate and
emits nothing beyond the flush of the previously open candidate.  Second,
from an in-block state with no pending candidate, any sequence of
non-blank fragment lines indented strictly deeper than the block
indentation is skipped entirely: the scan of the remaining lines continues
from the same state (only the line counter advances), so the fragments
produce zero records.  Third, a non-blank non-comment line at indentation
at most the block indentation is processed exactly as if the scanner were
freshly at top level: the block is exited and the closing line itself is
re-evaluated (it may start a new declaration or block). -/
theorem C5_block_skip :
    (∀ st hdr, st.dataBlock = false → st.recordBlock = false →
      pyStartsWith (pyStrip hdr) "--" = false →
      (data_where_match hdr = true ∨ data_match hdr = true ∨
        record_match hdr = true) →
      ((processLine st hdr).dataBlock ||
          (processLine st hdr).recordBlock) = true ∧
        (processLine st hdr).blockIndent = indentOf hdr ∧
        (processLine st hdr).reading = false ∧
        (processLine st hdr).acc = [] ∧
        (processLine st hdr).out = (flush st).out) ∧
    (∀ st frags ls, (st.dataBlock || st.recordBlock) = true →
      st.reading = false → st.acc = [] →
      (∀ f ∈ frags, pyStrip f ≠ "" ∧ st.blockIndent < indentOf f) →
      scanLines st (frags ++ ls) =
        scanLines { st with idx := st.idx + frags.length } ls) ∧
    (∀ st c, (st.dataBlock || st.recordBlock) = true → pyStrip c ≠ "" →
      pyStartsWith (pyStrip c) "--" = false → indentOf c ≤ st.blockIndent →
      processLine st c = processLine (clearBlock st) c) := by
  refine ⟨?_, ?_, closingReeval⟩
  · intro st hdr hdb hrb hcom hpat
    rw [processLine_top st hdr hdb hrb hcom]
    by_cases hdwm : (data_where_match hdr || data_match hdr) = true
    · rw [stepTop, if_pos hdwm]
      refine ⟨?_, ?_, ?_, ?_, ?_⟩ <;>
        simp [bumpIdx, enterDataBlock, flushReset, resetPending]
    · have hrm : record_match hdr = true := by
        rcases hpat with h | h | h
        · exact absurd (by simp [h]) hdwm
        · exact absurd (by simp [h]) hdwm
        · exact h
      rw [stepTop, if_neg hdwm, if_pos hrm]
      refine ⟨?_, ?_, ?_, ?_, ?_⟩ <;>
        simp [bumpIdx, enterRecordBlock, flushReset, resetPending]
  · intro st frags ls hb hr ha hall
    induction frags generalizing st with
    | nil => simp
    | cons f frags ih =>
      have hf := hall f (List.mem_cons_self f frags)
      rw [List.cons_append, scanLines,
        fragSkip st f hb hr ha (Or.inr hf.2)]
      have hrec := ih (bumpIdx st) (by simpa [bumpIdx] using hb)
        (by simp [bumpIdx, hr]) (by simp [bumpIdx, ha])
        (by
          intro g hg
          simpa [bumpIdx] using hall g (List.mem_cons_of_mem f hg))
      rw [hrec]
      congr 1
      cases st
      simp [bumpIdx]
      omega

/-- C5 witness: the three parts applied to a concrete data block: the
header `data Nat : Set where`, one fragment `  zero : Nat` and the closing
line `plus : Nat`. -/
theorem C5_witness :
    (((processLine initState "data Nat : Set where").dataBlock ||
        (processLine initState "data Nat : Set where").recordBlock) = true ∧
      (processLine initState "data Nat : Set where").blockIndent =
        indentOf "data Nat : Set where" ∧
      (processLine initState "data Nat : Set where").reading = false ∧
      (processLine initState "data Nat : Set where").acc = [] ∧
      (processLine initState "data Nat : Set where").out =
        (flush initState).out) ∧
    scanLines (scanLines initState ["data Nat : Set where"])
        (["  zero : Nat"] ++ ["plus : Nat"]) =
      scanLines
        { scanLines initState ["data Nat : Set where"] with
          idx := (scanLines initState ["data Nat : Set where"]).idx + 1 }
        ["plus : Nat"] ∧
    processLine (scanLines initState ["data Nat : Set where"]) "plus : Nat" =
      processLine (clearBlock (scanLines initState ["data Nat : Set where"]))
        "plus : Nat" := by
  refine ⟨?_, ?_, ?_⟩
  · exact C5_block_skip.1 initState "data Nat : Set where" (by decide)
      (by decide) (by decide) (by decide)
  · exact C5_block_skip.2.1 (scanLines initState ["data Nat : Set where"])
      ["  zero : Nat"] ["plus : Nat"] (by decide) (by decide) (by decide)
      (by decide)
  · exact C5_block_skip.2.2 (scanLines initState ["data Nat : Set where"])
      "plus : Nat" (by decide) (by decide) (by decide) (by decide)

/-- C6 counterexample: the claim says the name-based body-start rule also
fires when the candidate's name is immediately followed by an opening
parenthesis with no intervening space.  The scanner's rule requires the
name followed by a space, so after the open candidate `foo : A` the line
`foo(p)` (name `foo` directly followed by `(`, remainder `(p)` of
pattern-clause shape) is NOT classified as a body start: it is appended to
the candidate, whose emitted signature therefore contains both lines. -/
theorem C6_counterexample :
    collect_lemma_signatures ["foo : A", "foo(p)"] =
      [{ id := 0, name := "foo", signature := "foo : A\nfoo(p)", line := 1 }] := by
  decide

/-- C6 (amended): the name-based body-start rule requires a space after
the candidate's name: a line at header indentation whose trimmed content
begins with the candidate's name followed by a space, where the trimmed
remainder after the name starts with an opening parenthesis or contains
the standalone keyword `with`, is classified as a body start and finalizes
the pending candidate (the line itself being consumed).  A name
immediately followed by an opening parenthesis with no space does not
match this rule (see the counterexample). -/
theorem C6_name_clause_requires_space (st : ScanState) (line : String)
    (hdb : st.dataBlock = false) (hrb : st.recordBlock = false)
    (hcom : pyStartsWith (pyStrip line) "--" = false)
    (hdw : data_where_match line = false) (hdm : data_match line = false)
    (hrm : record_match line = false)
    (hr : st.reading = true) (ha : st.acc ≠ [])
    (hind : indentOf line = headerIndent st)
    (hnm : headerName st ≠ "")
    (hstart : pyStartsWith (pyStrip line) (headerName st ++ " ") = true)
    (hrem : pyStartsWith (remainingAfterName st line) "(" = true ∨
      containsSub (remainingAfterName st line) " with " = true) :
    processLine st line = bumpIdx (flushReset st) := by
  have hp : proofStarted st line = true := by
    rw [proofStarted]
    by_cases he : containsSub line " = " = true
    · rw [if_pos he]
    · rw [if_neg he, if_pos (by simp [hr, ha]), if_pos hind]
      by_cases hfirst : (pyStartsWith (pyStrip line) "(" ||
          containsSub line " with " ||
          pyStartsWith (pyStrip line) "where " ||
          pyStartsWith (pyStrip line) "...") = true
      · rw [if_pos hfirst]
      · rw [if_neg hfirst, if_pos (by simp [bne_iff_ne, hnm, hstart])]
        rcases hrem with h | h <;> simp [h]
  rw [processLine_top st line hdb hrb hcom, stepTop_proof st line hdw hdm hrm hp]

/-- C6 witness: the amended theorem applied to the open candidate
`foo : A` and the line `foo (p)` (name, space, parenthesised pattern). -/
theorem C6_witness :
    processLine (scanLines initState ["foo : A"]) "foo (p)" =
      bumpIdx (flushReset (scanLines initState ["foo : A"])) :=
  C6_name_clause_requires_space (scanLines initState ["foo : A"]) "foo (p)"
    (by decide) (by decide) (by decide) (by decide) (by decide) (by decide)
    (by decide) (by decide) (by decide) (by decide) (by decide)
    (Or.inl (by decide))

/-- C7 counterexample: the claim says a line satisfying none of the six
listed body-start conditions and not matching declaration-header shape is
always appended as a header continuation, in particular a line whose
trimmed content starts with an opening parenthesis at an indentation
different from the header's.  The scanner has a further body-start
condition for exactly that shape (parenthesis at a different indentation,
not ending in a colon, with no arrow or colon-final token among the last
three accumulated lines): after the open candidate `foo : A`, the line
`  (p q)` finalizes the candidate (signature `foo : A` only) instead of
being appended. -/
theorem C7_counterexample :
    collect_lemma_signatures ["foo : A", "  (p q)"] =
      [{ id := 0, name := "foo", signature := "foo : A", line := 1 }] := by
  decide

/-- C7 (amended): a top-level non-comment, non-block line read while a
candidate is open is appended to the candidate as a header continuation
when it satisfies none of the six listed body-start conditions, does not
match declaration-header shape, AND does not match the additional
deeper-indentation parenthesis heuristic (trimmed content starting with an
opening parenthesis, not ending in a colon, while none of the last three
non-blank accumulated lines contains an arrow or a colon inside its last
whitespace-separated token). -/
theorem C7_continuation (st : ScanState) (line : String)
    (hdb : st.dataBlock = false) (hrb : st.recordBlock = false)
    (hcom : pyStartsWith (pyStrip line) "--" = false)
    (hdw : data_where_match line = false) (hdm : data_match line = false)
    (hrm : record_match line = false)
    (hr : st.reading = true)
    (h1 : containsSub line " = " = false)
    (h2 : indentOf line = headerIndent st →
      pyStartsWith (pyStrip line) "(" = false ∧
      containsSub line " with " = false ∧
      pyStartsWith (pyStrip line) "where " = false ∧
      pyStartsWith (pyStrip line) "..." = false ∧
      ¬(headerName st ≠ "" ∧
        pyStartsWith (pyStrip line) (headerName st ++ " ") = true ∧
        (pyStartsWith (remainingAfterName st line) "(" = true ∨
          containsSub (remainingAfterName st line) " with " = true)))
    (h3 : indentOf line ≠ headerIndent st →
      ¬(pyStartsWith (pyStrip line) "(" = true ∧
        pyEndsWith (pyStrip line) ":" = false ∧
        last3Check st.acc = false))
    (hn : (nameColon line).isSome = false) :
    processLine st line = bumpIdx { st with acc := st.acc ++ [line] } := by
  have hp : proofStarted st line = false := by
    rw [proofStarted, if_neg (by simp [h1])]
    by_cases hacc : (st.reading && !st.acc.isEmpty) = true
    · rw [if_pos hacc]
      by_cases hind : indentOf line = headerIndent st
      · rw [if_pos hind]
        obtain ⟨ha1, ha2, ha3, ha4, ha5⟩ := h2 hind
        rw [if_neg (by simp [ha1, ha2, ha3, ha4])]
        by_cases hname : (headerName st != "" &&
            pyStartsWith (pyStrip line) (headerName st ++ " ")) = true
        · rw [if_pos hname]
          simp only [Bool.and_eq_true, bne_iff_ne] at hname
          push_neg at ha5
          have := ha5 hname.1 hname.2
          simp [this.1, this.2]
        · rw [if_neg hname]
      · rw [if_neg hind]
        have h3' := h3 hind
        cases hA : pyStartsWith (pyStrip line) "("
        · simp [hA]
        · cases hB : pyEndsWith (pyStrip line) ":"
          · cases hC : last3Check st.acc
            · exact absurd ⟨hA, hB, hC⟩ h3'
            · simp [hA, hB, hC]
          · simp [hA, hB]
    · rw [if_neg hacc]
  rw [processLine_top st line hdb hrb hcom,
    stepTop_plain st line hdw hdm hrm hp]
  rw [stepPlain, if_pos (by simp [hr]), if_neg (by simp [hn])]

/-- C7 witness: after the open candidate `foo : A ->`, the wrapped
continuation line `  B` is appended to the candidate. -/
theorem C7_witness :
    processLine (scanLines initState ["foo : A ->"]) "  B" =
      bumpIdx
        { scanLines initState ["foo : A ->"] with
          acc := (scanLines initState ["foo : A ->"]).acc ++ ["  B"] } :=
  C7_continuation (scanLines initState ["foo : A ->"]) "  B"
    (by decide) (by decide) (by decide) (by decide) (by decide) (by decide)
    (by decide) (by decide) (by decide) (by decide) (by decide)

theorem splitWsAux_ne_nil_of_cur (cs : List Char) (cur : List Char)
    (h : cur ≠ []) : splitWsAux cs cur ≠ [] := by
  induction cs generalizing cur with
  | nil =>
    simp only [splitWsAux]
    rw [if_neg (by simpa [List.isEmpty_iff] using h)]
    simp
  | cons c cs ih =>
    simp only [splitWsAux]
    by_cases hc : pyIsSpace c = true
    · rw [if_pos hc, if_neg (by simpa [List.isEmpty_iff] using h)]
      simp
    · rw [if_neg hc]
      exact ih (c :: cur) (by simp)

theorem splitWsAux_ne_nil (cs : List Char)
    (h : cs.dropWhile pyIsSpace ≠ []) : splitWsAux cs [] ≠ [] := by
  induction cs with
  | nil => simp at h
  | cons c cs ih =>
    simp only [splitWsAux]
    by_cases hc : pyIsSpace c = true
    · rw [if_pos hc, if_pos (by simp)]
      exact ih (by simpa [List.dropWhile, hc] using h)
    · rw [if_neg hc]
      exact splitWsAux_ne_nil_of_cur cs [c] (by simp)

theorem splitWs_ne_nil (l : String) (h : pyStrip l ≠ "") : splitWs l ≠ [] := by
  have hdrop : l.data.dropWhile pyIsSpace ≠ [] := by
    intro h0
    apply h
    show pyStrip l = ""
    unfold pyStrip pyLStripL
    rw [h0]
    rfl
  exact splitWsAux_ne_nil l.data hdrop

/-- C8: name rejection.  First, a candidate whose first line is
`_ : A → B` yields no name (the stoplisted placeholder `_`).  Second, any
candidate text whose extracted raw name carries the internal prefix `ela-`
is rejected.  Third, when name extraction rejects a candidate, finalizing
it emits nothing (the state is unchanged by the flush).  Fourth, as a
consequence of the guard at every emission site, no record ever emitted by
a scan has an empty name. -/
theorem C8_name_filtering :
    extract_lemma_name "_ : A → B" = "" ∧
    (∀ s nm sig,
      nameColon (String.mk (s.data.takeWhile (fun c => c != '\n'))) =
        some (nm, sig) →
      pyStartsWith nm "ela-" = true → extract_lemma_name s = "") ∧
    (∀ st : ScanState,
      extract_lemma_name (candidateText st) = "" → flush st = st) ∧
    (∀ lines, ∀ r ∈ collect_lemma_signatures lines, r.name ≠ "") := by
  refine ⟨by decide, ?_, ?_, ?_⟩
  · intro s nm sig h hela
    unfold extract_lemma_name
    rw [h]
    dsimp only
    by_cases h1 : stoplist.contains nm = true
    · rw [if_pos h1]
    · rw [if_neg h1]
      by_cases h2 : pyStartsWith nm "(" = true
      · rw [if_pos h2]
      · rw [if_neg h2, if_pos hela]
  · intro st h
    unfold flush
    split
    · rw [if_neg]
      simp only [bne_iff_ne, ne_eq, not_not]
      exact h
    · rfl
  · intro lines r hr
    unfold collect_lemma_signatures at hr
    obtain ⟨d2, hd2, hn2⟩ := flush_out (scanLines initState lines)
    obtain ⟨d1, hd1, hn1⟩ := scanLines_out initState lines
    rw [hd2, hd1] at hr
    simp only [initState, List.nil_append, List.mem_append] at hr
    rcases hr with h | h
    · exact hn1 r h
    · exact hn2 r h

/-- C8 witness: the rejection components applied to concrete inputs, and
the no-empty-name consequence applied to a concrete scan. -/
theorem C8_witness :
    extract_lemma_name "ela-x : T" = "" ∧
    ({ id := 0, name := "foo", signature := "foo : A", line := 1 } :
      LemmaRecord).name ≠ "" := by
  constructor
  · exact C8_name_filtering.2.1 "ela-x : T" "ela-x" "T" (by decide) (by decide)
  · exact C8_name_filtering.2.2.2 ["foo : A"]
      { id := 0, name := "foo", signature := "foo : A", line := 1 }
      (by decide)

/-- C9: totality of the per-file scan.  The scanner is a single left fold
over the line list (hence a total function of the input line sequence),
its output sequence only ever grows by appending, and the single guarded
partial operation of the body-start lookback (taking the last
whitespace-separated token of a non-blank line) is safe: a line with
non-blank trimmed content always splits into at least one token. -/
theorem C9_totality :
    (∀ st lines, scanLines st lines = List.foldl processLine st lines) ∧
    (∀ st lines, ∃ d, (scanLines st lines).out = st.out ++ d) ∧
    (∀ l : String, pyStrip l ≠ "" → splitWs l ≠ []) := by
  refine ⟨scanLines_eq_foldl, ?_, splitWs_ne_nil⟩
  intro st lines
  obtain ⟨d, hd, _⟩ := scanLines_out st lines
  exact ⟨d, hd⟩

/-- C9 witness: the token-split safety applied to a concrete line. -/
theorem C9_witness : splitWs "abc" ≠ [] :=
  C9_totality.2.2 "abc" (by decide)

/-- C10: while the scanner is inside a data or record block it never holds
an open pending candidate, as an invariant of every reachable state; and
consequently processing a block-interior fragment line (blank, or indented
strictly deeper than the block) from such a state changes nothing but the
line counter — in particular it emits no record. -/
theorem C10_block_invariant :
    (∀ lines, ((scanLines initState lines).dataBlock ||
        (scanLines initState lines).recordBlock) = true →
      (scanLines initState lines).reading = false ∧
        (scanLines initState lines).acc = []) ∧
    (∀ st line, (st.dataBlock || st.recordBlock) = true →
      st.reading = false → st.acc = [] →
      (pyStrip line = "" ∨ st.blockIndent < indentOf line) →
      processLine st line = bumpIdx st) := by
  constructor
  · intro lines
    exact inv_scanLines initState lines (by intro hb; simp [initState] at hb)
  · exact fragSkip

/-- C10 witness: the invariant after scanning a data-block header, and the
record-free skip of a concrete fragment line. -/
theorem C10_witness :
    ((scanLines initState ["data Nat : Set where"]).reading = false ∧
      (scanLines initState ["data Nat : Set where"]).acc = []) ∧
    processLine (scanLines initState ["data Nat : Set where"])
        "  zero : Nat" =
      bumpIdx (scanLines initState ["data Nat : Set where"]) := by
  constructor
  · exact C10_block_invariant.1 ["data Nat : Set where"] (by decide)
  · exact C10_block_invariant.2 (scanLines initState ["data Nat : Set where"])
      "  zero : Nat" (by decide) (by decide) (by decide)
      (Or.inr (by decide))

end AgdaLemmaSearch
